import Mathlib

/-!
Shallow embedding of `src/docker/manager.py` from docker-simple-py: the path
resolver `_get_working_directory`, the command-execution engine `run` with its
sentinel-based exit-status recovery, the filesystem-introspection helpers built
on it, and the scoped-acquisition (with-statement) lifecycle.

Python strings are embedded as `List Char`.  The external `execute` primitive
(`docker.helpers.execute`) and the `ProcessResult` it returns are not part of
the sources; they are kept abstract (a parameter `List Char → ProcessResult`)
or, where a claim needs their behaviour, modelled from the spec.
-/

/-- Modelled from the spec: `docker.helpers.ProcessResult` (not in the
sources) carries the captured output text, the error text and a numeric exit
code, as returned by the `execute` primitive. -/
structure ProcessResult where
  out : List Char
  err : List Char
  return_code : Int
  deriving DecidableEq

/-- Modelled from the spec (section 3, CommandResult): the derived success
flag of a result is `exit status == 0`. -/
def ProcessResult.succeeded (r : ProcessResult) : Bool := r.return_code == 0

/-- The single-quote character (codepoint 39). -/
def squote : Char := Char.ofNat 39

/-- The double-quote character (codepoint 34). -/
def dquote : Char := Char.ofNat 34

namespace Docker

/-- Embeds `Docker._get_working_directory` (manager.py lines 224-236): a path
beginning with a root marker or an explicit home marker is returned unchanged,
anything else is anchored at the home directory. -/
def get_working_directory (working_directory : List Char) : List Char :=
  if ("/".data).isPrefixOf working_directory || ("~/".data).isPrefixOf working_directory then
    working_directory
  else
    "~/".data ++ working_directory

/-- Embeds the quote-rewriting step of `Docker.run` (manager.py line 67):
every single-quote character of the command is replaced by a double quote. -/
def quoteRewritten (command : List Char) : List Char :=
  command.map fun c => if c = squote then dquote else c

/-- Literal head of the transport invocation built by `Docker.run`. -/
def dockerExecLit : List Char := "docker exec -i ".data

/-- Literal middle segment of the transport invocation. -/
def bashLit : List Char := " bash -c ".data

/-- Literal sentinel-emission tail of the transport invocation, including the
closing wrapper quote: a `;` separator, the echo of `--return-$?--`, and the
final single quote. -/
def sentinelEchoLit : List Char :=
  " ;  echo ".data ++ ([dquote] ++ ("--return-$?--".data ++ ([dquote] ++ [squote])))

/-- Embeds the inner composite command of `Docker.run` (manager.py lines
68-70): `cd <wd> && <command>`, with the stream merge appended when
`combine_outputs` is set. -/
def innerCommand (combine_outputs : Bool) (command working_directory : List Char) : List Char :=
  "cd ".data ++ (get_working_directory working_directory ++ (" && ".data ++
    (quoteRewritten command ++ (if combine_outputs then " 2>&1".data else []))))

/-- Embeds the full transport invocation built by `Docker.run` (manager.py
lines 71-76): the exec head, the container name, the shell entry, the opening
wrapper quote, the inner command and the sentinel-emission tail. -/
def composeCommand (combine_outputs : Bool) (container command working_directory : List Char) :
    List Char :=
  dockerExecLit ++ (container ++ (bashLit ++ ([squote] ++
    (innerCommand combine_outputs command working_directory ++ sentinelEchoLit))))

/-- Numeric value of the captured digit group, as Python `int` applied to the
ASCII digits of group 1 of the sentinel pattern. -/
def digitsVal (ds : List Char) : Nat :=
  ds.foldl (fun a c => a * 10 + (c.toNat - 48)) 0

/-- Anchored part of the sentinel pattern of `Docker.run` (manager.py line
78).  The raw pattern is nine literal marker characters, then `(\d+)`, then
two literal marker characters, then the anchor `$`.  `matchCore l` decides
whether the pattern, started at the head of `l`, matches through to the
anchor (`$` matches at the very end of the output or just before one final
newline character), returning group 0 together with the numeric value of
group 1.  Greedy `(\d+)` followed by the non-digit marker makes the digit
group exactly the maximal digit run. -/
def matchCore (l : List Char) : Option (List Char × Nat) :=
  if ("--return-".data).isPrefixOf l then
    let rest := l.drop 9
    let ds := rest.takeWhile Char.isDigit
    if ds.isEmpty then none
    else
      let rest2 := rest.drop ds.length
      if rest2 = ['-', '-'] ∨ rest2 = ['-', '-', '\n'] then
        some (("--return-".data) ++ (ds ++ ['-', '-']), digitsVal ds)
      else none
  else none

/-- One attempt of the full pattern at a given start position.  The pattern
begins with the optional group over the raw source text backslash-n (the raw
pattern `(?:\\n)?` matches the two characters backslash and `n`, not a
newline). A greedy optional group is tried with the group first, then without
it. -/
def tryAt (l : List Char) : Option (List Char × Nat) :=
  match l with
  | '\\' :: 'n' :: rest =>
    match matchCore rest with
    | some (g, code) => some ('\\' :: 'n' :: g, code)
    | none => matchCore l
  | _ => matchCore l

/-- Embeds `re.search` of the sentinel pattern (manager.py line 78): the
attempt positions are scanned left to right and the first success is
returned, giving group 0 and the numeric value of group 1. -/
def reSearchTail : List Char → Option (List Char × Nat)
  | [] => none
  | c :: rest =>
    match tryAt (c :: rest) with
    | some g => some g
    | none => reSearchTail rest

/-- Fuelled scanner behind `strReplaceEmpty`; the fuel is an upper bound on
the scanned length, so the definition is structurally recursive and reduces
inside the kernel. -/
def replaceAux (pat : List Char) : Nat → List Char → List Char
  | _, [] => []
  | 0, s => s
  | fuel + 1, c :: rest =>
    if !pat.isEmpty && pat.isPrefixOf (c :: rest) then
      replaceAux pat fuel ((c :: rest).drop pat.length)
    else
      c :: replaceAux pat fuel rest

/-- Embeds Python `s.replace(pat, rep)` with the empty replacement, as used in
manager.py line 81: every non-overlapping occurrence of `pat` is removed in a
single left-to-right scan. -/
def strReplaceEmpty (s pat : List Char) : List Char := replaceAux pat s.length s

/-- Embeds the status-recovery stage of `Docker.run` (manager.py lines
78-84): search the output for the sentinel pattern; when found, take the
digits as the exit status, remove the matched text from the output with
`str.replace`, and drop one final newline character when the remaining output
ends in one; when not found, return the transport result unchanged. -/
def parseRunOutput (r : ProcessResult) : ProcessResult :=
  match reSearchTail r.out with
  | none => r
  | some (g, code) =>
    let out1 := strReplaceEmpty r.out g
    let out2 := if out1.getLast? = some '\n' then out1.dropLast else out1
    { r with out := out2, return_code := (code : Int) }

/-- Embeds `Docker.run` (manager.py lines 52-84), with the external `execute`
primitive abstracted as `exec`: compose the transport invocation, submit it,
and recover status and cleaned output from the raw result. -/
def run (exec : List Char → ProcessResult) (combine_outputs : Bool)
    (container command working_directory : List Char) : ProcessResult :=
  parseRunOutput (exec (composeCommand combine_outputs container command working_directory))

/-- Embeds `Docker.read_file` (manager.py lines 86-98): resolve the path, run
`cat` on it through the engine, and return the output text on success and
`none` otherwise. -/
def read_file (exec : List Char → ProcessResult) (combine_outputs : Bool)
    (container path : List Char) : Option (List Char) :=
  let p := get_working_directory path
  let r := run exec combine_outputs container ("cat ".data ++ p) []
  if r.succeeded then some r.out else none

/-- Embeds `Docker.file_exist` (manager.py lines 113-121): resolve the path,
run `test -f` on it, and report whether the recovered exit status is zero. -/
def file_exist (exec : List Char → ProcessResult) (combine_outputs : Bool)
    (container path : List Char) : Bool :=
  let p := get_working_directory path
  (run exec combine_outputs container ("test -f ".data ++ p) []).return_code == 0

/-- Embeds `Docker.directory_exist` (manager.py lines 123-131): resolve the
path, run `test -d` on it, and report whether the recovered exit status is
zero. -/
def directory_exist (exec : List Char → ProcessResult) (combine_outputs : Bool)
    (container path : List Char) : Bool :=
  let p := get_working_directory path
  (run exec combine_outputs container ("test -d ".data ++ p) []).return_code == 0

/-- Fuelled scanner behind `pySplitSep`; the fuel bounds the scanned length so
the definition is structurally recursive. -/
def pySplitAux (sep : List Char) : Nat → List Char → List (List Char)
  | _, [] => [[]]
  | 0, s => [s]
  | fuel + 1, c :: rest =>
    if !sep.isEmpty && sep.isPrefixOf (c :: rest) then
      [] :: pySplitAux sep fuel ((c :: rest).drop sep.length)
    else
      match pySplitAux sep fuel rest with
      | [] => [[c]]
      | g :: gs => (c :: g) :: gs

/-- Embeds Python `s.split(sep)` for a nonempty separator, as used in
manager.py line 145: cut at every non-overlapping occurrence of the
separator, scanning left to right. -/
def pySplitSep (sep s : List Char) : List (List Char) := pySplitAux sep s.length s

/-- Embeds Python `os.path.join(a, b)` on POSIX paths as used in manager.py
line 146: an absolute second component wins; otherwise the components are
joined with exactly one separator. -/
def osPathJoin (a b : List Char) : List Char :=
  if ("/".data).isPrefixOf b then b
  else if a = [] then b
  else if a.getLast? = some '/' then a ++ b
  else a ++ ('/' :: b)

/-- Embeds `Docker.list_files` (manager.py lines 133-150): resolve the path,
split the comma-separated `ls -m` output, and append each candidate entry to
the result exactly when joining it to the resolved path passes `file_exist`
and fails `directory_exist`. -/
def list_files (exec : List Char → ProcessResult) (combine_outputs : Bool)
    (container path : List Char) : List (List Char) :=
  let p := get_working_directory path
  let entries := pySplitSep (", ".data) (run exec combine_outputs container ("ls -m ".data ++ p) []).out
  entries.foldl (fun acc fp =>
    let full := osPathJoin p fp
    if file_exist exec combine_outputs container full &&
        !(directory_exist exec combine_outputs container full) then
      acc ++ [fp]
    else acc) []

/-- Lifecycle calls issued by the manager, for the scoped-acquisition
model. -/
inductive DockerEvent where
  | start : DockerEvent
  | stop : DockerEvent
  deriving DecidableEq

/-- Embeds `Docker.__enter__` (manager.py lines 44-45): entering the scope
calls `start`. -/
def dockerEnterTrace : List DockerEvent := [DockerEvent.start]

/-- Embeds `Docker.__exit__` (manager.py lines 47-50): `stop` is called
unconditionally, and then the in-flight exception, when present, is
re-raised. -/
def dockerExitStep {ε : Type} (exc : Option ε) : List DockerEvent × Option ε :=
  ([DockerEvent.stop], exc)

/-- The Python with-statement around the manager: `__enter__`, then the
wrapped unit of work (given as its trace of lifecycle calls and the exception
it signals, if any), then `__exit__`; the second component is the exception
the whole scope propagates to the caller. -/
def withDocker {ε : Type} (body : List DockerEvent × Option ε) : List DockerEvent × Option ε :=
  (dockerEnterTrace ++ (body.1 ++ (dockerExitStep body.2).1), (dockerExitStep body.2).2)

end Docker

/-- Fuelled decimal printer behind `natDecimal`. -/
def natDecimalAux : Nat → Nat → List Char
  | 0, _ => []
  | fuel + 1, n =>
    if n < 10 then [Nat.digitChar n]
    else natDecimalAux fuel (n / 10) ++ [Nat.digitChar (n % 10)]

/-- Decimal representation of a natural number, as the shell prints the value
of the status parameter inside the sentinel echo. -/
def natDecimal (n : Nat) : List Char := natDecimalAux (n + 1) n

/-- The sentinel text carrying status `n`: the opening marker, the decimal
digits, the closing marker. -/
def sentinelText (n : Nat) : List Char :=
  "--return-".data ++ (natDecimal n ++ "--".data)

/-- Whether a sentinel fragment (opening marker, one or more digits, closing
marker) begins at the head of `s`. -/
def sentinelFragAt (s : List Char) : Bool :=
  ("--return-".data).isPrefixOf s &&
    (let rest := s.drop 9
     let ds := rest.takeWhile Char.isDigit
     !ds.isEmpty && ("--".data).isPrefixOf (rest.drop ds.length))

/-- Whether a sentinel fragment (marker, digits, marker) occurs anywhere in
`s`. -/
def hasSentinelFragment (s : List Char) : Bool :=
  (List.range (s.length + 1)).any fun i => sentinelFragAt (s.drop i)

/-- Modelled from the spec: the `execute` primitive (docker.helpers, not in
the sources) together with the container shell, observed on the composite
command built for the user command `exit n`: the inner command prints nothing
and exits with status `n`, the sentinel emission prints the markers around
the decimal status followed by the newline that `echo` appends, and the outer
transport itself succeeds with status 0. -/
def exitCommandTransport (n : Nat) : List Char → ProcessResult :=
  fun _ => { out := sentinelText n ++ ['\n'], err := [], return_code := 0 }

/-- A transport whose raw output contains no sentinel and which reports exit
status 0, as after a transport-level truncation. -/
def plainTransport : List Char → ProcessResult :=
  fun _ => { out := "hello".data, err := [], return_code := 0 }

/-- A transport that fails at the transport level: empty output, so no
sentinel is found, and a nonzero exit status of its own. -/
def failTransport : List Char → ProcessResult :=
  fun _ => { out := [], err := [], return_code := 1 }

/-- A suffix of a list is still a suffix after prepending on the left. -/
theorem isSuffix_append_left {α : Type} {t l : List α} (x : List α) (h : t <:+ l) :
    t <:+ x ++ l := by
  obtain ⟨u, hu⟩ := h
  exact ⟨x ++ u, by rw [List.append_assoc, hu]⟩

/-- The fuelled scanner behind `strReplaceEmpty` does not depend on the fuel
once the fuel covers the length of the scanned list. -/
theorem replaceAux_fuel (pat : List Char) :
    ∀ (f₁ f₂ : Nat) (s : List Char), s.length ≤ f₁ → s.length ≤ f₂ →
      Docker.replaceAux pat f₁ s = Docker.replaceAux pat f₂ s := by
  intro f₁
  induction f₁ with
  | zero =>
    intro f₂ s h1 _
    have hs : s = [] := List.eq_nil_of_length_eq_zero (Nat.le_zero.mp h1)
    subst hs
    cases f₂ <;> rfl
  | succ f ih =>
    intro f₂ s h1 h2
    cases s with
    | nil => cases f₂ <;> rfl
    | cons c rest =>
      cases f₂ with
      | zero => simp at h2
      | succ f₂ =>
        simp only [List.length_cons] at h1 h2
        cases hb : (!pat.isEmpty && pat.isPrefixOf (c :: rest)) with
        | true =>
          have hpat : pat ≠ [] := by
            intro hnil
            rw [hnil] at hb
            simp at hb
          have hlen : 1 ≤ pat.length := by
            cases pat with
            | nil => exact absurd rfl hpat
            | cons _ _ => simp
          simp only [Docker.replaceAux, hb, if_true]
          apply ih
          · rw [List.length_drop, List.length_cons]
            omega
          · rw [List.length_drop, List.length_cons]
            omega
        | false =>
          simp only [Docker.replaceAux, hb, if_false, Bool.false_eq_true]
          rw [ih f₂ rest (by omega) (by omega)]

/-- Removing occurrences from the empty string gives the empty string. -/
theorem strReplaceEmpty_nil (pat : List Char) : Docker.strReplaceEmpty [] pat = [] := rfl

/-- The scan keeps the head character when the pattern does not start
there. -/
theorem strReplaceEmpty_cons_neg (pat : List Char) (c : Char) (rest : List Char)
    (hb : (!pat.isEmpty && pat.isPrefixOf (c :: rest)) = false) :
    Docker.strReplaceEmpty (c :: rest) pat = c :: Docker.strReplaceEmpty rest pat := by
  show Docker.replaceAux pat (c :: rest).length (c :: rest) = _
  rw [List.length_cons]
  simp only [Docker.replaceAux, hb, if_false, Bool.false_eq_true]
  rfl

/-- The scan removes the pattern when it starts at the head. -/
theorem strReplaceEmpty_head (m s : List Char) (hm : m ≠ []) :
    Docker.strReplaceEmpty (m ++ s) m = Docker.strReplaceEmpty s m := by
  cases m with
  | nil => exact absurd rfl hm
  | cons a m =>
    have hb : (!(a :: m).isEmpty && (a :: m).isPrefixOf ((a :: m) ++ s)) = true := by
      simp [List.isPrefixOf_iff_prefix]
    have hdrop : List.drop m.length (m ++ s) = s := List.drop_left m s
    show Docker.replaceAux (a :: m) ((a :: m) ++ s).length ((a :: m) ++ s) = _
    rw [show ((a :: m) ++ s).length = (m ++ s).length + 1 by simp]
    rw [show (a :: m) ++ s = a :: (m ++ s) from rfl] at hb ⊢
    simp only [Docker.replaceAux, hb, if_true]
    rw [show (a :: m).length = m.length + 1 from rfl, List.drop_succ_cons, hdrop]
    apply replaceAux_fuel
    · simp
    · exact Nat.le_refl _

/-- The scan passes over a region in which the pattern starts nowhere. -/
theorem strReplaceEmpty_skip (m p s : List Char)
    (hp : ∀ i, i < p.length → m.isPrefixOf ((p ++ (m ++ s)).drop i) = false) :
    Docker.strReplaceEmpty (p ++ (m ++ s)) m = p ++ Docker.strReplaceEmpty (m ++ s) m := by
  induction p with
  | nil => simp
  | cons a p ih =>
    have h0 : m.isPrefixOf (a :: (p ++ (m ++ s))) = false := by
      have := hp 0 (by simp)
      simpa using this
    have hb : (!m.isEmpty && m.isPrefixOf (a :: (p ++ (m ++ s)))) = false := by
      rw [h0, Bool.and_false]
    rw [List.cons_append, strReplaceEmpty_cons_neg _ _ _ hb]
    rw [ih]
    · rfl
    · intro i hi
      have := hp (i + 1) (by simpa using Nat.succ_lt_succ hi)
      simpa using this

/-- A string in which the pattern starts nowhere is left unchanged by the
scan. -/
theorem strReplaceEmpty_of_no_occurrence (m s : List Char)
    (h : ∀ i, i < s.length → m.isPrefixOf (s.drop i) = false) :
    Docker.strReplaceEmpty s m = s := by
  induction s with
  | nil => rfl
  | cons c rest ih =>
    have h0 : m.isPrefixOf (c :: rest) = false := by
      have := h 0 (by simp)
      simpa using this
    have hb : (!m.isEmpty && m.isPrefixOf (c :: rest)) = false := by
      rw [h0, Bool.and_false]
    rw [strReplaceEmpty_cons_neg _ _ _ hb, ih]
    intro i hi
    have := h (i + 1) (by simpa using Nat.succ_lt_succ hi)
    simpa using this

/-- C5: the path resolver returns the path unchanged exactly when the path
begins with the root marker or with the explicit home marker, and otherwise
returns the home marker concatenated with the path; being a total Lean
function, it has no error conditions. -/
theorem c5_path_resolver (p : List Char) :
    (Docker.get_working_directory p = p ↔
      (("/".data).isPrefixOf p || ("~/".data).isPrefixOf p) = true) ∧
    ((("/".data).isPrefixOf p || ("~/".data).isPrefixOf p) = false →
      Docker.get_working_directory p = "~/".data ++ p) := by
  cases hb : (("/".data).isPrefixOf p || ("~/".data).isPrefixOf p) with
  | true =>
    refine ⟨by simp [Docker.get_working_directory, hb], ?_⟩
    intro h
    exact Bool.noConfusion h
  | false =>
    have hg : Docker.get_working_directory p = "~/".data ++ p := by
      simp [Docker.get_working_directory, hb]
    refine ⟨?_, fun _ => hg⟩
    rw [hg]
    constructor
    · intro h
      have hlen := congrArg List.length h
      rw [List.length_append] at hlen
      have h2 : ("~/".data).length = 2 := rfl
      omega
    · intro h
      exact Bool.noConfusion h

/-- C5 witness: a bare relative path is anchored at the home marker. -/
theorem c5_path_resolver_witness :
    ((("/".data).isPrefixOf ("x".data) || ("~/".data).isPrefixOf ("x".data)) = false) ∧
    Docker.get_working_directory ("x".data) = "~/".data ++ "x".data :=
  ⟨by decide, (c5_path_resolver ("x".data)).2 (by decide)⟩

/-- C10: the resolver output always begins with the root marker or the home
marker, and hence the resolver is idempotent. -/
theorem c10_resolver_idempotent (p : List Char) :
    (("/".data).isPrefixOf (Docker.get_working_directory p)
      || ("~/".data).isPrefixOf (Docker.get_working_directory p)) = true ∧
    Docker.get_working_directory (Docker.get_working_directory p) =
      Docker.get_working_directory p := by
  cases hb : (("/".data).isPrefixOf p || ("~/".data).isPrefixOf p) with
  | true =>
    have hg : Docker.get_working_directory p = p := by
      simp [Docker.get_working_directory, hb]
    rw [hg, hb]
    exact ⟨rfl, hg⟩
  | false =>
    have hg : Docker.get_working_directory p = "~/".data ++ p := by
      simp [Docker.get_working_directory, hb]
    have hpre : ("~/".data).isPrefixOf ("~/".data ++ p) = true := by
      rw [List.isPrefixOf_iff_prefix]
      exact List.prefix_append _ _
    rw [hg]
    constructor
    · rw [hpre, Bool.or_true]
    · simp [Docker.get_working_directory, hpre]

/-- C4: when the sentinel pattern is not found in the raw output, `run`
returns the transport result unchanged: the exit status stays whatever the
outer transport reported and the output text is not modified. -/
theorem c4_sentinel_missing (exec : List Char → ProcessResult) (co : Bool)
    (container command wd : List Char)
    (h : Docker.reSearchTail (exec (Docker.composeCommand co container command wd)).out = none) :
    Docker.run exec co container command wd =
      exec (Docker.composeCommand co container command wd) := by
  unfold Docker.run Docker.parseRunOutput
  rw [h]

/-- C4 witness: a transport whose raw output holds no sentinel passes through
`run` unchanged. -/
theorem c4_sentinel_missing_witness :
    Docker.reSearchTail (plainTransport (Docker.composeCommand false ("box".data) ("pwd".data) [])).out = none ∧
    Docker.run plainTransport false ("box".data) ("pwd".data) [] =
      plainTransport (Docker.composeCommand false ("box".data) ("pwd".data) []) :=
  ⟨by decide, c4_sentinel_missing plainTransport false ("box".data) ("pwd".data) [] (by decide)⟩

/-- C3: when the sentinel is found, the output after stripping is trimmed of
exactly one trailing line break when it ends in one, and is returned with no
character removed when it does not; in particular the last character of
output lacking a trailing line break is never truncated. -/
theorem c3_trailing_break (r : ProcessResult) (g : List Char) (code : Nat)
    (h : Docker.reSearchTail r.out = some (g, code)) :
    ((Docker.strReplaceEmpty r.out g).getLast? = some '\n' →
      (Docker.parseRunOutput r).out ++ ['\n'] = Docker.strReplaceEmpty r.out g) ∧
    ((Docker.strReplaceEmpty r.out g).getLast? ≠ some '\n' →
      (Docker.parseRunOutput r).out = Docker.strReplaceEmpty r.out g) := by
  constructor
  · intro hl
    obtain ⟨ys, hys⟩ := List.getLast?_eq_some_iff.mp hl
    simp only [Docker.parseRunOutput, h]
    rw [if_pos hl, hys]
    rw [List.dropLast_concat]
  · intro hl
    simp only [Docker.parseRunOutput, h]
    rw [if_neg hl]

/-- C3 witness: output with no trailing line break keeps its last
character. -/
theorem c3_trailing_break_witness :
    Docker.reSearchTail ("abc--return-5--".data) = some ("--return-5--".data, 5) ∧
    (Docker.strReplaceEmpty ("abc--return-5--".data) ("--return-5--".data)).getLast? ≠ some '\n' ∧
    (Docker.parseRunOutput ⟨"abc--return-5--".data, [], 0⟩).out =
      Docker.strReplaceEmpty ("abc--return-5--".data) ("--return-5--".data) := by
  refine ⟨by decide, by decide, ?_⟩
  exact (c3_trailing_break ⟨"abc--return-5--".data, [], 0⟩ ("--return-5--".data) 5
    (by decide)).2 (by decide)

/-- C2 is false as stated: on a raw output holding the matched sentinel text
twice, the earlier occurrence does not remain in the cleaned output — both
occurrences are removed. -/
theorem c2_counterexample :
    (Docker.parseRunOutput ⟨"A--return-7--B--return-7--".data, [], 0⟩).out = "AB".data ∧
    (Docker.parseRunOutput ⟨"A--return-7--B--return-7--".data, [], 0⟩).out ≠
      "A--return-7--B".data := by
  decide

/-- C2 amended: only the last (trailing) occurrence of the sentinel pattern
is matched, but the strip then removes every non-overlapping occurrence of
the matched substring from the output, not only the trailing one, before the
single-newline trim; earlier identical occurrences do not remain.  Stated for
a raw output decomposed around two occurrences of the matched text `g`, with
`g` starting nowhere else. -/
theorem c2_all_occurrences_removed (r : ProcessResult) (g p q t : List Char) (code : Nat)
    (hg : g ≠ [])
    (h : Docker.reSearchTail r.out = some (g, code))
    (hout : r.out = p ++ (g ++ (q ++ (g ++ t))))
    (hp : ∀ i, i < p.length → g.isPrefixOf ((p ++ (g ++ (q ++ (g ++ t)))).drop i) = false)
    (hq : ∀ i, i < q.length → g.isPrefixOf ((q ++ (g ++ t)).drop i) = false)
    (ht : ∀ i, i < t.length → g.isPrefixOf (t.drop i) = false) :
    (Docker.parseRunOutput r).return_code = (code : Int) ∧
    (Docker.parseRunOutput r).out =
      (if (p ++ (q ++ t)).getLast? = some '\n' then (p ++ (q ++ t)).dropLast
       else p ++ (q ++ t)) := by
  have hrep : Docker.strReplaceEmpty r.out g = p ++ (q ++ t) := by
    rw [hout, strReplaceEmpty_skip g p (q ++ (g ++ t)) hp,
        strReplaceEmpty_head g (q ++ (g ++ t)) hg,
        strReplaceEmpty_skip g q t hq,
        strReplaceEmpty_head g t hg,
        strReplaceEmpty_of_no_occurrence g t ht]
  constructor
  · simp only [Docker.parseRunOutput, h]
  · simp only [Docker.parseRunOutput, h]
    rw [hrep]

/-- C2 amended witness: the counterexample input, decomposed around its two
occurrences of the matched text. -/
theorem c2_all_occurrences_removed_witness :
    Docker.reSearchTail ("A--return-7--B--return-7--".data) = some ("--return-7--".data, 7) ∧
    (Docker.parseRunOutput ⟨"A--return-7--B--return-7--".data, [], 0⟩).return_code = (7 : Int) ∧
    (Docker.parseRunOutput ⟨"A--return-7--B--return-7--".data, [], 0⟩).out =
      (if ("A".data ++ ("B".data ++ ([] : List Char))).getLast? = some '\n'
       then ("A".data ++ ("B".data ++ ([] : List Char))).dropLast
       else "A".data ++ ("B".data ++ ([] : List Char))) := by
  refine ⟨by decide, ?_⟩
  exact c2_all_occurrences_removed ⟨"A--return-7--B--return-7--".data, [], 0⟩
    ("--return-7--".data) ("A".data) ("B".data) [] 7 (by decide) (by decide) (by decide)
    (by decide) (by decide) (by decide)

set_option maxRecDepth 16384 in
set_option maxHeartbeats 1600000 in
/-- C1: for every exit status below 256, running the command `exit N` through
the engine over the spec-modelled transport recovers exactly N as the exit
status, and the cleaned output contains no fragment of the sentinel
(marker-digits-marker) pattern. -/
theorem c1_exit_status : ∀ n : Nat, n < 256 →
    (Docker.run (exitCommandTransport n) false ("dyn-0".data)
        ("exit ".data ++ natDecimal n) []).return_code = (n : Int) ∧
    hasSentinelFragment
      (Docker.run (exitCommandTransport n) false ("dyn-0".data)
        ("exit ".data ++ natDecimal n) []).out = false := by
  decide

/-- C1 witness: the instance at exit status 7. -/
theorem c1_exit_status_witness :
    7 < 256 ∧
    ((Docker.run (exitCommandTransport 7) false ("dyn-0".data)
        ("exit ".data ++ natDecimal 7) []).return_code = (7 : Int) ∧
      hasSentinelFragment
        (Docker.run (exitCommandTransport 7) false ("dyn-0".data)
          ("exit ".data ++ natDecimal 7) []).out = false) :=
  ⟨by decide, c1_exit_status 7 (by decide)⟩

/-- C6: the rewritten user command contains no single-quote character, the
composite invocation contains exactly the two wrapper single quotes whenever
the container name and the working directory contain none, and the composite
invocation still ends with the literal sentinel-emission suffix. -/
theorem c6_quote_neutralization (command container wd : List Char) (co : Bool)
    (hc : squote ∉ container) (hw : squote ∉ wd) :
    squote ∉ Docker.quoteRewritten command ∧
    (Docker.composeCommand co container command wd).count squote = 2 ∧
    Docker.sentinelEchoLit <:+ Docker.composeCommand co container command wd := by
  have hnomem : squote ∉ Docker.quoteRewritten command := by
    intro hmem
    rcases List.mem_map.mp hmem with ⟨a, _, ha⟩
    by_cases hA : a = squote
    · rw [if_pos hA] at ha
      exact absurd ha (by decide)
    · rw [if_neg hA] at ha
      exact hA ha
  refine ⟨hnomem, ?_, ?_⟩
  · have hcount_container : container.count squote = 0 := List.count_eq_zero.mpr hc
    have hcount_wd : wd.count squote = 0 := List.count_eq_zero.mpr hw
    have hgwd : (Docker.get_working_directory wd).count squote = 0 := by
      unfold Docker.get_working_directory
      split
      · exact hcount_wd
      · rw [List.count_append, hcount_wd]
        decide
    have hcmd : (Docker.quoteRewritten command).count squote = 0 :=
      List.count_eq_zero.mpr hnomem
    have hite : (if co then " 2>&1".data else ([] : List Char)).count squote = 0 := by
      cases co <;> decide
    have h1 : ("cd ".data).count squote = 0 := by decide
    have h2 : (" && ".data).count squote = 0 := by decide
    have hinner : (Docker.innerCommand co command wd).count squote = 0 := by
      unfold Docker.innerCommand
      simp only [List.count_append]
      rw [h1, h2, hgwd, hcmd, hite]
    have h3 : Docker.dockerExecLit.count squote = 0 := by decide
    have h4 : Docker.bashLit.count squote = 0 := by decide
    have h5 : ([squote] : List Char).count squote = 1 := by decide
    have h6 : Docker.sentinelEchoLit.count squote = 1 := by decide
    unfold Docker.composeCommand
    simp only [List.count_append]
    rw [h3, h4, h5, h6, hcount_container, hinner]
  · unfold Docker.composeCommand
    apply isSuffix_append_left
    apply isSuffix_append_left
    apply isSuffix_append_left
    apply isSuffix_append_left
    exact List.suffix_append _ _

/-- C6 witness: a command carrying two embedded single quotes. -/
theorem c6_quote_neutralization_witness :
    squote ∉ Docker.quoteRewritten ("echo ".data ++ ([squote] ++ ("hi".data ++ [squote]))) ∧
    (Docker.composeCommand false ("box".data)
        ("echo ".data ++ ([squote] ++ ("hi".data ++ [squote]))) []).count squote = 2 ∧
    Docker.sentinelEchoLit <:+ Docker.composeCommand false ("box".data)
        ("echo ".data ++ ([squote] ++ ("hi".data ++ [squote]))) [] :=
  c6_quote_neutralization ("echo ".data ++ ([squote] ++ ("hi".data ++ [squote])))
    ("box".data) [] false (by decide) (by decide)

/-- C7: `read_file` returns the cat command output exactly when the
recovered exit status is zero, and an absence marker (`none`), never a raised
error, when it is not. -/
theorem c7_read_file (exec : List Char → ProcessResult) (co : Bool)
    (container path : List Char) :
    ((Docker.run exec co container ("cat ".data ++ Docker.get_working_directory path)
          []).return_code = 0 →
      Docker.read_file exec co container path =
        some (Docker.run exec co container ("cat ".data ++ Docker.get_working_directory path)
          []).out) ∧
    ((Docker.run exec co container ("cat ".data ++ Docker.get_working_directory path)
          []).return_code ≠ 0 →
      Docker.read_file exec co container path = none) := by
  constructor
  · intro h
    have hb : ((Docker.run exec co container
        ("cat ".data ++ Docker.get_working_directory path) []).return_code == 0) = true :=
      beq_iff_eq.mpr h
    simp only [Docker.read_file, ProcessResult.succeeded]
    rw [hb]
    simp
  · intro h
    have hb : ((Docker.run exec co container
        ("cat ".data ++ Docker.get_working_directory path) []).return_code == 0) = false :=
      beq_eq_false_iff_ne.mpr h
    simp only [Docker.read_file, ProcessResult.succeeded]
    rw [hb]
    simp

/-- C7 witness: a failing transport makes `read_file` return absence rather
than raise. -/
theorem c7_read_file_witness :
    (Docker.run failTransport false ("box".data)
        ("cat ".data ++ Docker.get_working_directory ("missing.txt".data)) []).return_code ≠ 0 ∧
    Docker.read_file failTransport false ("box".data) ("missing.txt".data) = none :=
  ⟨by decide, (c7_read_file failTransport false ("box".data) ("missing.txt".data)).2 (by decide)⟩

/-- A negated Boolean that tests true was false. -/
theorem bool_not_true {b : Bool} (h : (!b) = true) : b = false := by
  cases b
  · rfl
  · exact absurd h (by decide)

/-- A left fold that pushes accepted elements onto the accumulator computes
an append of a filter. -/
theorem foldl_push_filter {α : Type} (pred : α → Bool) :
    ∀ (l acc : List α),
      l.foldl (fun acc e => if pred e then acc ++ [e] else acc) acc = acc ++ l.filter pred := by
  intro l
  induction l with
  | nil => intro acc; simp
  | cons a l ih =>
    intro acc
    rw [List.foldl_cons, List.filter_cons]
    by_cases h : pred a = true
    · rw [if_pos h, if_pos h, ih, List.append_assoc, List.singleton_append]
    · rw [if_neg h, if_neg h, ih]

/-- C8: an entry of the listing output is included in the `list_files` result
exactly when joining it to the resolved path passes the file-existence check
and fails the directory-existence check, and the result preserves the order
of the listing output (it is a sublist of it, with no reordering). -/
theorem c8_list_files (exec : List Char → ProcessResult) (co : Bool)
    (container path e : List Char) :
    (e ∈ Docker.list_files exec co container path ↔
      (e ∈ Docker.pySplitSep (", ".data)
          (Docker.run exec co container
            ("ls -m ".data ++ Docker.get_working_directory path) []).out ∧
        Docker.file_exist exec co container
          (Docker.osPathJoin (Docker.get_working_directory path) e) = true ∧
        Docker.directory_exist exec co container
          (Docker.osPathJoin (Docker.get_working_directory path) e) = false)) ∧
    (Docker.list_files exec co container path).Sublist
      (Docker.pySplitSep (", ".data)
        (Docker.run exec co container
          ("ls -m ".data ++ Docker.get_working_directory path) []).out) := by
  have hlf : Docker.list_files exec co container path =
      (Docker.pySplitSep (", ".data)
        (Docker.run exec co container
          ("ls -m ".data ++ Docker.get_working_directory path) []).out).filter
        (fun fp =>
          Docker.file_exist exec co container
            (Docker.osPathJoin (Docker.get_working_directory path) fp) &&
          !(Docker.directory_exist exec co container
            (Docker.osPathJoin (Docker.get_working_directory path) fp))) := by
    unfold Docker.list_files
    rw [foldl_push_filter]
    rw [List.nil_append]
  rw [hlf]
  constructor
  · rw [List.mem_filter]
    constructor
    · rintro ⟨h1, h2⟩
      rcases (Bool.and_eq_true _ _).mp h2 with ⟨h3, h4⟩
      exact ⟨h1, h3, bool_not_true h4⟩
    · rintro ⟨h1, h2, h3⟩
      refine ⟨h1, ?_⟩
      rw [h2, h3]
      rfl
  · exact List.filter_sublist _

/-- C9: entering the scope issues `start`; when the wrapped unit of work
signals a failure, `stop` is still issued exactly once, as the final
lifecycle call, and the original failure is propagated to the caller after
teardown. -/
theorem c9_scoped_teardown {ε : Type} (bodyTrace : List Docker.DockerEvent) (e : ε)
    (h : Docker.DockerEvent.stop ∉ bodyTrace) :
    (Docker.withDocker (bodyTrace, some e)).2 = some e ∧
    ((Docker.withDocker (bodyTrace, some e)).1).count Docker.DockerEvent.stop = 1 ∧
    ((Docker.withDocker (bodyTrace, some e)).1).head? = some Docker.DockerEvent.start ∧
    ((Docker.withDocker (bodyTrace, some e)).1).getLast? = some Docker.DockerEvent.stop := by
  refine ⟨rfl, ?_, rfl, ?_⟩
  · rw [show (Docker.withDocker (bodyTrace, some e)).1 =
        [Docker.DockerEvent.start] ++ (bodyTrace ++ [Docker.DockerEvent.stop]) from rfl]
    rw [List.count_append, List.count_append, List.count_eq_zero.mpr h]
    decide
  · rw [show (Docker.withDocker (bodyTrace, some e)).1 =
        (Docker.DockerEvent.start :: bodyTrace) ++ [Docker.DockerEvent.stop] from rfl]
    rw [List.getLast?_concat]

/-- C9 witness: a failing body with an empty lifecycle trace. -/
theorem c9_scoped_teardown_witness :
    Docker.DockerEvent.stop ∉ ([] : List Docker.DockerEvent) ∧
    ((Docker.withDocker (([] : List Docker.DockerEvent), some (0 : Nat))).2 = some 0 ∧
      ((Docker.withDocker (([] : List Docker.DockerEvent), some (0 : Nat))).1).count
        Docker.DockerEvent.stop = 1 ∧
      ((Docker.withDocker (([] : List Docker.DockerEvent), some (0 : Nat))).1).head? =
        some Docker.DockerEvent.start ∧
      ((Docker.withDocker (([] : List Docker.DockerEvent), some (0 : Nat))).1).getLast? =
        some Docker.DockerEvent.stop) :=
  ⟨by decide, c9_scoped_teardown [] 0 (by decide)⟩
